import Mathlib

/-!
Verification of the g-computation estimator (`TimeFixedGFormula`) described by
the repository's two tutorial notebooks.  The estimator engine itself is not
among the repository's source files (the notebooks only call it), so the
definitions below are modelled from the specification: the data model of §3,
the operations of §4.1 and the error taxonomy of §7.  Tables hold exact
rational values, the fitted regression model is an abstract prediction
capability supplied by a collaborator, and the seeded pseudo-random stream of
stochastic fits is a concrete linear congruential generator.
-/

namespace GComp

abbrev Col := String

/-- Modelled from the spec: a row of the observation table (§3) — a mapping
from covariate name to numeric value, plus the outcome value, which may be
missing.  The exposure is one of the named covariate columns. -/
structure Row where
  covs : List (Col × ℚ)
  outcome : Option ℚ
deriving DecidableEq

/-- Look a column up in a row. -/
def Row.get (r : Row) (c : Col) : Option ℚ := r.covs.lookup c

/-- Overwrite a column of a row (counterfactual exposure assignment). -/
def Row.setCol (r : Row) (c : Col) (v : ℚ) : Row :=
  { r with covs := r.covs.map (fun kv => if kv.1 = c then (kv.1, v) else kv) }

/-- Modelled from the spec: the fitted outcome model is an opaque prediction
capability mapping a covariate row to a predicted outcome value (§3, §6);
it never reads the observed outcome. -/
abbrev Model := List (Col × ℚ) → ℚ

/-- Modelled from the spec: the error taxonomy of §7. -/
inductive GError
  | ConfigurationError
  | ModelFitError
  | NotFittedError
  | RuleEvaluationError
deriving DecidableEq

/-- Comparison operators available in row predicates. -/
inductive Cop
  | ceq
  | cne
  | clt
  | cle
  | cgt
  | cge
deriving DecidableEq

/-- Apply a comparison operator to two rationals. -/
def Cop.apply : Cop → ℚ → ℚ → Bool
  | .ceq, a, b => decide (a = b)
  | .cne, a, b => decide (a ≠ b)
  | .clt, a, b => decide (a < b)
  | .cle, a, b => decide (a ≤ b)
  | .cgt, a, b => decide (b < a)
  | .cge, a, b => decide (b ≤ a)

/-- Modelled from the spec: a custom-treatment / group-restriction predicate.
In the source these are string expressions such as `g['male'] == 0`,
evaluated against the covariate table bound to the fixed identifier `g`
(the notebook's "magic-g"); an atom therefore records the identifier used,
the column, a comparison and a constant, and conjunctions mirror
`(g['age0'] < 50) & (g['cd40'] < 250)`. -/
inductive PredExpr
  | atom (var : String) (col : Col) (cop : Cop) (val : ℚ)
  | conj (p q : PredExpr)
deriving DecidableEq

/-- Evaluate a predicate on one row.  Evaluation fails (rather than silently
selecting no rows) when the table identifier is not `g` or the referenced
column is absent. -/
def evalPred : PredExpr → Row → Except GError Bool
  | .atom v c cop q, r =>
      if v = "g" then
        match r.get c with
        | Option.none => .error .RuleEvaluationError
        | Option.some x => .ok (cop.apply x q)
      else .error .RuleEvaluationError
  | .conj p q, r =>
      match evalPred p r, evalPred q r with
      | .ok a, .ok b => .ok (a && b)
      | .error e, _ => .error e
      | _, .error e => .error e

/-- Map a fallible function over a list, propagating the first error. -/
def mapE (f : α → Except GError β) : List α → Except GError (List β)
  | [] => .ok []
  | x :: xs =>
      match f x, mapE f xs with
      | .ok y, .ok ys => .ok (y :: ys)
      | .error e, _ => .error e
      | _, .error e => .error e

/-- Arithmetic mean of a list of rationals. -/
def mean (l : List ℚ) : ℚ := l.sum / l.length

/-- Modelled from the spec: the `TimeFixedGFormula` estimator state — the
observation table, the exposure column name, the stored fitted model (absent
until `outcome_model` succeeds) and the marginal outcome result (absent until
a treatment-rule fit succeeds, §4.1). -/
structure TimeFixedGFormula where
  table : List Row
  exposure : Col
  fitted_model : Option Model
  marginal_outcome : Option ℚ

/-- Modelled from the spec: construction (§4.1) — fails with
`ConfigurationError` if the exposure column is absent from the table. -/
def init (table : List Row) (exposure : Col) : Except GError TimeFixedGFormula :=
  if table.all (fun r => (r.get exposure).isSome) then
    .ok { table := table, exposure := exposure,
          fitted_model := Option.none, marginal_outcome := Option.none }
  else .error .ConfigurationError

/-- Rows used for model fitting: exactly those with a non-missing outcome. -/
def fittingRows (t : List Row) : List Row := t.filter (fun r => r.outcome.isSome)

/-- Modelled from the spec: `outcome_model` (§4.1) — fit the regression on the
rows with non-missing outcome via the external regression capability
`fitReg`; on success store the model and clear any previously computed
marginal outcome; on failure (`ModelFitError`) leave the state unchanged. -/
def outcome_model (fitReg : List Row → Option Model) (g : TimeFixedGFormula) :
    TimeFixedGFormula × Option GError :=
  match fitReg (fittingRows g.table) with
  | Option.none => (g, Option.some .ModelFitError)
  | Option.some m =>
      ({ g with fitted_model := Option.some m, marginal_outcome := Option.none },
       Option.none)

/-- Modelled from the spec: deterministic treatment rules (§3). -/
inductive Treatment
  | ALL
  | NONE
  | CUSTOM (p : PredExpr)

/-- Apply a deterministic treatment rule to one row: overwrite the exposure
column with 1, 0, or the predicate's 0/1 value. -/
def applyRule (expo : Col) (tr : Treatment) (r : Row) : Except GError Row :=
  match tr with
  | .ALL => .ok (r.setCol expo 1)
  | .NONE => .ok (r.setCol expo 0)
  | .CUSTOM p =>
      match evalPred p r with
      | .error e => .error e
      | .ok b => .ok (r.setCol expo (if b then 1 else 0))

/-- Commit the outcome of a fit computation to the estimator state: on error
the state is returned unchanged (fail-clean, §7); on success the marginal
outcome result is overwritten. -/
def commit (g : TimeFixedGFormula) : Except GError ℚ → TimeFixedGFormula × Option GError
  | .error e => (g, Option.some e)
  | .ok v => ({ g with marginal_outcome := Option.some v }, Option.none)

/-- The pure computation behind `fit` (§4.1): requires a stored model, applies
the rule to a copy of every row of the table, predicts for every row and
averages over all of them. -/
def fitResult (expo : Col) (mo : Option Model) (tbl : List Row) (tr : Treatment) :
    Except GError ℚ :=
  match mo with
  | Option.none => .error .NotFittedError
  | Option.some m =>
      match mapE (applyRule expo tr) tbl with
      | .error e => .error e
      | .ok rows => .ok (mean (rows.map (fun r => m r.covs)))

/-- Modelled from the spec: `fit` under a deterministic treatment rule
(§4.1). -/
def fit (tr : Treatment) (g : TimeFixedGFormula) : TimeFixedGFormula × Option GError :=
  commit g (fitResult g.exposure g.fitted_model g.table tr)

/-- Modelled from the spec: the deterministic pseudo-random stream seeded by
`seed` (§4.1) — a linear congruential generator on 31-bit states. -/
def lcgNext (s : ℕ) : ℕ := (s * 1103515245 + 12345) % 2147483648

/-- Advance the generator and read the fresh state as a uniform rational in
[0,1). -/
def lcgUnif (s : ℕ) : ℚ := (lcgNext s : ℚ) / 2147483648

/-- One Bernoulli(p) draw: advance the stream, treat when the uniform value
falls below `p`.  Returns the draw and the advanced stream state. -/
def draw (p : ℚ) (s : ℕ) : Bool × ℕ := (decide (lcgUnif s < p), lcgNext s)

/-- The stream state after `n` draws. -/
def seedAfter : ℕ → ℕ → ℕ
  | 0, s => s
  | n + 1, s => seedAfter n (lcgNext s)

/-- One stochastic trial's exposure assignment: for each row in order, obtain
that row's treatment probability (which may fail for conditional plans),
draw Bernoulli and overwrite the exposure column, threading the stream. -/
def assignWith (expo : Col) (probOf : Row → Except GError ℚ) :
    List Row → ℕ → Except GError (List Row × ℕ)
  | [], s => .ok ([], s)
  | r :: rs, s =>
      match probOf r with
      | .error e => .error e
      | .ok pr =>
          let b := (draw pr s).1
          match assignWith expo probOf rs (lcgNext s) with
          | .error e => .error e
          | .ok (rest, s3) => .ok ((r.setCol expo (if b then 1 else 0)) :: rest, s3)

/-- The repetition loop of `fit_stochastic` (§4.1): each trial assigns random
exposures to a fresh copy of the table, predicts for every row and records
the trial's mean prediction. -/
def trialsWith (expo : Col) (m : Model) (probOf : Row → Except GError ℚ)
    (tbl : List Row) : ℕ → ℕ → Except GError (List ℚ)
  | 0, _ => .ok []
  | k + 1, s =>
      match assignWith expo probOf tbl s with
      | .error e => .error e
      | .ok (rows, s2) =>
          match trialsWith expo m probOf tbl k s2 with
          | .error e => .error e
          | .ok ms => .ok (mean (rows.map (fun r => m r.covs)) :: ms)

/-- The pure computation behind the stochastic fits: requires a stored model,
runs the trials and averages the trial means. -/
def stochResult (expo : Col) (mo : Option Model) (probOf : Row → Except GError ℚ)
    (tbl : List Row) (reps seed : ℕ) : Except GError ℚ :=
  match mo with
  | Option.none => .error .NotFittedError
  | Option.some m =>
      match trialsWith expo m probOf tbl reps seed with
      | .error e => .error e
      | .ok ms => .ok (mean ms)

/-- Modelled from the spec: the unconditional `fit_stochastic(p, repetitions,
seed)` (§4.1) — fails with `ConfigurationError` unless `p` is a probability,
with `NotFittedError` before `outcome_model`; otherwise draws Bernoulli(p)
exposures for every row in each of `reps` trials and stores the mean of the
trial means. -/
def fit_stochastic (p : ℚ) (reps seed : ℕ) (g : TimeFixedGFormula) :
    TimeFixedGFormula × Option GError :=
  if 0 ≤ p ∧ p ≤ 1 then
    commit g (stochResult g.exposure g.fitted_model (fun _ => .ok p) g.table reps seed)
  else (g, Option.some .ConfigurationError)

/-- The Boolean match pattern of a row against the group predicates. -/
def matchFlags (conds : List PredExpr) (r : Row) : Except GError (List Bool) :=
  mapE (fun p => evalPred p r) conds

/-- The probability attached to the first matched group. -/
def pickProb : List Bool → List ℚ → ℚ
  | true :: _, q :: _ => q
  | _ :: bs, _ :: qs => pickProb bs qs
  | _, _ => 0

/-- A row's treatment probability under a conditional plan: evaluate every
group predicate (propagating `RuleEvaluationError`); the groups must
partition the table, so a row matching a number of groups other than one is a
`ConfigurationError`. -/
def condProb (conds : List PredExpr) (ps : List ℚ) (r : Row) : Except GError ℚ :=
  match matchFlags conds r with
  | .error e => .error e
  | .ok bs =>
      if bs.count true = 1 then .ok (pickProb bs ps)
      else .error .ConfigurationError

/-- Modelled from the spec: the conditional form of `fit_stochastic`
(`p` a list of probabilities, `conditional` an equal-length list of group
predicates, §4.1) — fails with `ConfigurationError` on a length mismatch or a
non-probability entry, and per row when the groups do not partition the
table. -/
def fit_stochastic_conditional (ps : List ℚ) (conds : List PredExpr)
    (reps seed : ℕ) (g : TimeFixedGFormula) : TimeFixedGFormula × Option GError :=
  if ps.length = conds.length ∧ ∀ q ∈ ps, 0 ≤ q ∧ q ≤ 1 then
    commit g (stochResult g.exposure g.fitted_model (condProb conds ps) g.table reps seed)
  else (g, Option.some .ConfigurationError)

/-! ### Helper lemmas -/

lemma commit_error (g : TimeFixedGFormula) (e : GError) :
    commit g (.error e) = (g, Option.some e) := rfl

lemma commit_ok (g : TimeFixedGFormula) (v : ℚ) :
    commit g (.ok v) = ({ g with marginal_outcome := Option.some v }, Option.none) := rfl

lemma commit_preserves (g : TimeFixedGFormula) (r : Except GError ℚ) :
    (commit g r).1.table = g.table ∧ (commit g r).1.exposure = g.exposure ∧
      (commit g r).1.fitted_model = g.fitted_model := by
  cases r <;> exact ⟨rfl, rfl, rfl⟩

lemma commit_fail_clean (g : TimeFixedGFormula) (r : Except GError ℚ)
    (h : (commit g r).2.isSome = true) : (commit g r).1 = g := by
  cases r with
  | error e => rfl
  | ok v => simp [commit_ok] at h

lemma commit_snd_none (g : TimeFixedGFormula) (r : Except GError ℚ)
    (h : (commit g r).2 = Option.none) : ∃ v, r = .ok v := by
  cases r with
  | error e => simp [commit_error] at h
  | ok v => exact ⟨v, rfl⟩

lemma commit_marg_isSome (g : TimeFixedGFormula) (v : ℚ) :
    ((commit g (.ok v)).1.marginal_outcome).isSome = true := rfl

lemma mapE_ok_length (f : α → Except GError β) :
    ∀ (l : List α) (l' : List β), mapE f l = .ok l' → l'.length = l.length := by
  intro l
  induction l with
  | nil =>
      intro l' h
      simp [mapE] at h
      simp [← h]
  | cons x xs ih =>
      intro l' h
      simp only [mapE] at h
      cases hx : f x with
      | error e => rw [hx] at h; exact absurd h (by simp)
      | ok y =>
          rw [hx] at h
          cases hxs : mapE f xs with
          | error e => rw [hxs] at h; exact absurd h (by simp)
          | ok ys =>
              rw [hxs] at h
              cases h
              simp [ih ys hxs]

lemma mapE_ok_of_forall (f : α → Except GError β) (h : α → β) :
    ∀ (l : List α), (∀ x ∈ l, f x = .ok (h x)) → mapE f l = .ok (l.map h) := by
  intro l
  induction l with
  | nil => intro _; rfl
  | cons x xs ih =>
      intro hall
      simp only [mapE, hall x (by simp), ih (fun y hy => hall y (by simp [hy])), List.map]

lemma mapE_error_of_mem (f : α → Except GError β) :
    ∀ (l : List α) (x : α), x ∈ l → ∀ (e : GError), f x = .error e →
      ∃ e', mapE f l = .error e' := by
  intro l
  induction l with
  | nil => intro x hx; exact absurd hx (by simp)
  | cons y ys ih =>
      intro x hx e hfx
      rcases List.mem_cons.mp hx with h | h
      · subst h
        exact ⟨e, by simp [mapE, hfx]⟩
      · rcases ih x h e hfx with ⟨e', he'⟩
        cases hy : f y with
        | error e2 => exact ⟨e2, by simp [mapE, hy]⟩
        | ok v => exact ⟨e', by simp [mapE, hy, he']⟩

lemma lcgNext_lt (s : ℕ) : lcgNext s < 2147483648 :=
  Nat.mod_lt _ (by norm_num)

lemma lcgUnif_nonneg (s : ℕ) : 0 ≤ lcgUnif s := by
  unfold lcgUnif
  positivity

lemma lcgUnif_lt_one (s : ℕ) : lcgUnif s < 1 := by
  unfold lcgUnif
  rw [div_lt_one (by norm_num)]
  exact_mod_cast lcgNext_lt s

lemma draw_one_fst (s : ℕ) : (draw 1 s).1 = true := by
  simp [draw, lcgUnif_lt_one s]

lemma draw_zero_fst (s : ℕ) : (draw 0 s).1 = false := by
  simp [draw, not_lt.mpr (lcgUnif_nonneg s)]

lemma assignWith_const (expo : Col) (p : ℚ) (b : Bool)
    (hb : ∀ s, (draw p s).1 = b) :
    ∀ (tbl : List Row) (s : ℕ),
      assignWith expo (fun _ => .ok p) tbl s =
        .ok (tbl.map (fun r => r.setCol expo (if b then 1 else 0)),
             seedAfter tbl.length s) := by
  intro tbl
  induction tbl with
  | nil => intro s; rfl
  | cons r rs ih =>
      intro s
      simp only [assignWith, hb s, ih (lcgNext s), List.map, List.length_cons]
      rfl

lemma trialsWith_const (expo : Col) (m : Model) (p : ℚ) (b : Bool)
    (hb : ∀ s, (draw p s).1 = b) (tbl : List Row) :
    ∀ (reps s : ℕ),
      trialsWith expo m (fun _ => .ok p) tbl reps s =
        .ok (List.replicate reps
          (mean ((tbl.map (fun r => r.setCol expo (if b then 1 else 0))).map
            (fun r => m r.covs)))) := by
  intro reps
  induction reps with
  | zero => intro s; rfl
  | succ k ih =>
      intro s
      simp only [trialsWith, assignWith_const expo p b hb tbl s, ih, List.replicate]

lemma mean_replicate (k : ℕ) (v : ℚ) (hk : 0 < k) :
    mean (List.replicate k v) = v := by
  unfold mean
  rw [List.sum_replicate, List.length_replicate, nsmul_eq_mul]
  rw [mul_comm, mul_div_assoc, div_self (by exact_mod_cast hk.ne'), mul_one]

lemma assignWith_congr (expo : Col) (f h : Row → Except GError ℚ) :
    ∀ (tbl : List Row), (∀ r ∈ tbl, f r = h r) →
      ∀ s, assignWith expo f tbl s = assignWith expo h tbl s := by
  intro tbl
  induction tbl with
  | nil => intro _ s; rfl
  | cons r rs ih =>
      intro hall s
      simp only [assignWith, hall r (by simp),
        ih (fun y hy => hall y (by simp [hy])) (lcgNext s)]

lemma trialsWith_congr (expo : Col) (m : Model) (f h : Row → Except GError ℚ)
    (tbl : List Row) (hall : ∀ r ∈ tbl, f r = h r) :
    ∀ (reps s : ℕ), trialsWith expo m f tbl reps s = trialsWith expo m h tbl reps s := by
  intro reps
  induction reps with
  | zero => intro s; rfl
  | succ k ih =>
      intro s
      simp only [trialsWith, assignWith_congr expo f h tbl hall s]
      cases assignWith expo h tbl s with
      | error e => rfl
      | ok pr => simp only [ih pr.2]

lemma stochResult_congr (expo : Col) (mo : Option Model)
    (f h : Row → Except GError ℚ) (tbl : List Row)
    (hall : ∀ r ∈ tbl, f r = h r) (reps seed : ℕ) :
    stochResult expo mo f tbl reps seed = stochResult expo mo h tbl reps seed := by
  cases mo with
  | none => rfl
  | some m => simp only [stochResult, trialsWith_congr expo m f h tbl hall reps seed]

lemma fitResult_ALL (expo : Col) (m : Model) (tbl : List Row) :
    fitResult expo (Option.some m) tbl Treatment.ALL =
      .ok (mean ((tbl.map (fun r => r.setCol expo 1)).map (fun r => m r.covs))) := by
  simp [fitResult, mapE_ok_of_forall (applyRule expo Treatment.ALL)
    (fun r => r.setCol expo 1) tbl (fun x _ => rfl)]

lemma fitResult_NONE (expo : Col) (m : Model) (tbl : List Row) :
    fitResult expo (Option.some m) tbl Treatment.NONE =
      .ok (mean ((tbl.map (fun r => r.setCol expo 0)).map (fun r => m r.covs))) := by
  simp [fitResult, mapE_ok_of_forall (applyRule expo Treatment.NONE)
    (fun r => r.setCol expo 0) tbl (fun x _ => rfl)]

/-! ### Concrete example data for witnesses -/

/-- A concrete prediction model for witnesses: predicted outcome is a linear
function of the exposure column. -/
def mEx : Model := fun covs => 1 / 4 - (covs.lookup "art").getD 0 / 8

/-- A concrete observed row (treated, died). -/
def rowEx1 : Row := { covs := [("art", 1), ("male", 1)], outcome := Option.some 1 }

/-- A concrete observed row (untreated, survived). -/
def rowEx2 : Row := { covs := [("art", 0), ("male", 0)], outcome := Option.some 0 }

/-- A concrete row with missing outcome. -/
def rowEx3 : Row := { covs := [("art", 0), ("male", 1)], outcome := Option.none }

/-- A concrete observation table with one missing outcome. -/
def tblEx : List Row := [rowEx1, rowEx2, rowEx3]

/-- A freshly constructed estimator (no model, no result). -/
def gInit : TimeFixedGFormula :=
  { table := tblEx, exposure := "art",
    fitted_model := Option.none, marginal_outcome := Option.none }

/-- An estimator whose outcome model has been fit. -/
def gFit : TimeFixedGFormula :=
  { table := tblEx, exposure := "art",
    fitted_model := Option.some mEx, marginal_outcome := Option.none }

/-- A concrete regression capability that always converges to `mEx`. -/
def fitRegEx : List Row → Option Model := fun _ => Option.some mEx

lemma stochResult_one (expo : Col) (m : Model) (tbl : List Row) (reps seed : ℕ) :
    stochResult expo (Option.some m) (fun _ => .ok 1) tbl reps seed =
      .ok (mean (List.replicate reps
        (mean ((tbl.map (fun r => r.setCol expo 1)).map (fun r => m r.covs))))) := by
  simp [stochResult, trialsWith_const expo m 1 true draw_one_fst tbl reps seed]

lemma stochResult_zero (expo : Col) (m : Model) (tbl : List Row) (reps seed : ℕ) :
    stochResult expo (Option.some m) (fun _ => .ok 0) tbl reps seed =
      .ok (mean (List.replicate reps
        (mean ((tbl.map (fun r => r.setCol expo 0)).map (fun r => m r.covs))))) := by
  simp [stochResult, trialsWith_const expo m 0 false draw_zero_fst tbl reps seed]

lemma fit_stochastic_eq_commit_one (g : TimeFixedGFormula) (reps seed : ℕ) :
    fit_stochastic 1 reps seed g =
      commit g (stochResult g.exposure g.fitted_model (fun _ => .ok 1) g.table reps seed) := by
  unfold fit_stochastic
  rw [if_pos (by norm_num)]

lemma fit_stochastic_eq_commit_zero (g : TimeFixedGFormula) (reps seed : ℕ) :
    fit_stochastic 0 reps seed g =
      commit g (stochResult g.exposure g.fitted_model (fun _ => .ok 0) g.table reps seed) := by
  unfold fit_stochastic
  rw [if_pos (by norm_num)]

/-! ### Claim theorems -/

/-- C7: for every table and fitted model, `fit(ALL)` and `fit(NONE)` are
order-insensitive — running them in either order yields the same two
marginal-outcome values — and no `fit` call mutates the estimator's
observation table (nor its exposure column name or stored model): each fit
works on an internal copy. -/
theorem fit_all_none_order_insensitive (g : TimeFixedGFormula) :
    (∀ tr, ((fit tr g).1).table = g.table ∧ ((fit tr g).1).exposure = g.exposure ∧
      ((fit tr g).1).fitted_model = g.fitted_model) ∧
    (fit Treatment.ALL g).1.marginal_outcome =
      (fit Treatment.ALL ((fit Treatment.NONE g).1)).1.marginal_outcome ∧
    (fit Treatment.NONE g).1.marginal_outcome =
      (fit Treatment.NONE ((fit Treatment.ALL g).1)).1.marginal_outcome := by
  refine ⟨fun tr => commit_preserves g _, ?_, ?_⟩ <;>
    cases hm : g.fitted_model with
  | none => simp [fit, fitResult, hm, commit_error]
  | some m => simp [fit, hm, fitResult_ALL, fitResult_NONE, commit_ok]

/-- C8: every failing operation is atomic with respect to the estimator
state — whichever of the four error kinds is raised, on failure the stored
fitted model and any previously computed marginal-outcome result are
unchanged (the whole estimator state is returned untouched), and the error is
surfaced to the caller rather than retried. -/
theorem fits_fail_clean (g : TimeFixedGFormula) (fitReg : List Row → Option Model)
    (tr : Treatment) (p : ℚ) (ps : List ℚ) (conds : List PredExpr) (reps seed : ℕ) :
    ((outcome_model fitReg g).2.isSome = true → (outcome_model fitReg g).1 = g) ∧
    ((fit tr g).2.isSome = true → (fit tr g).1 = g) ∧
    ((fit_stochastic p reps seed g).2.isSome = true →
      (fit_stochastic p reps seed g).1 = g) ∧
    ((fit_stochastic_conditional ps conds reps seed g).2.isSome = true →
      (fit_stochastic_conditional ps conds reps seed g).1 = g) := by
  refine ⟨?_, ?_, ?_, ?_⟩
  · intro h
    cases hf : fitReg (fittingRows g.table) with
    | none => simp [outcome_model, hf]
    | some m => simp [outcome_model, hf] at h
  · exact commit_fail_clean g _
  · intro h
    by_cases hc : 0 ≤ p ∧ p ≤ 1
    · unfold fit_stochastic at h ⊢
      rw [if_pos hc] at h ⊢
      exact commit_fail_clean g _ h
    · unfold fit_stochastic
      rw [if_neg hc]
  · intro h
    by_cases hc : ps.length = conds.length ∧ ∀ q ∈ ps, 0 ≤ q ∧ q ≤ 1
    · unfold fit_stochastic_conditional at h ⊢
      rw [if_pos hc] at h ⊢
      exact commit_fail_clean g _ h
    · unfold fit_stochastic_conditional
      rw [if_neg hc]

/-- Witness for C8: a treatment-rule fit on a freshly constructed estimator
(no model yet) fails, and the failing call leaves the estimator exactly as it
was. -/
theorem fits_fail_clean_witness :
    ((fit Treatment.ALL gInit).2.isSome = true) ∧ (fit Treatment.ALL gInit).1 = gInit :=
  ⟨rfl, (fits_fail_clean gInit fitRegEx Treatment.ALL 1 [] [] 1 1).2.1 rfl⟩

/-- C9: the `marginal_outcome` result is only gained by a fit call — a
freshly constructed estimator has none, a successful `outcome_model` call
still leaves none (it clears any prior result), and a successful `fit` or
`fit_stochastic` call is exactly what populates it. -/
theorem marginal_outcome_requires_fit (tbl : List Row) (expo : Col)
    (g g2 g3 : TimeFixedGFormula) (fitReg : List Row → Option Model)
    (tr : Treatment) (p : ℚ) (reps seed : ℕ) :
    (init tbl expo = .ok g → g.marginal_outcome = Option.none) ∧
    ((outcome_model fitReg g2).2 = Option.none →
      ((outcome_model fitReg g2).1).marginal_outcome = Option.none) ∧
    ((fit tr g3).2 = Option.none → (((fit tr g3).1).marginal_outcome).isSome = true) ∧
    ((fit_stochastic p reps seed g3).2 = Option.none →
      (((fit_stochastic p reps seed g3).1).marginal_outcome).isSome = true) := by
  refine ⟨?_, ?_, ?_, ?_⟩
  · intro h
    unfold init at h
    split at h
    · cases h
      rfl
    · cases h
  · intro h
    cases hf : fitReg (fittingRows g2.table) with
    | none => simp [outcome_model, hf] at h
    | some m => simp [outcome_model, hf]
  · intro h
    rcases commit_snd_none g3 _ h with ⟨v, hv⟩
    show ((commit g3 (fitResult g3.exposure g3.fitted_model g3.table tr)).1.marginal_outcome).isSome
      = true
    rw [hv]
    exact commit_marg_isSome g3 v
  · intro h
    by_cases hc : 0 ≤ p ∧ p ≤ 1
    · unfold fit_stochastic at h ⊢
      rw [if_pos hc] at h ⊢
      rcases commit_snd_none g3 _ h with ⟨v, hv⟩
      rw [hv]
      exact commit_marg_isSome g3 v
    · unfold fit_stochastic at h
      rw [if_neg hc] at h
      simp at h

/-- Witness for C9: on concrete data, the fresh estimator and the
estimator right after `outcome_model` carry no marginal outcome, while a
successful `fit(ALL)` and a successful `fit_stochastic` both populate it. -/
theorem marginal_outcome_requires_fit_witness :
    gInit.marginal_outcome = Option.none ∧
    ((outcome_model fitRegEx gInit).1).marginal_outcome = Option.none ∧
    (((fit Treatment.ALL gFit).1).marginal_outcome).isSome = true ∧
    (((fit_stochastic 1 2 7 gFit).1).marginal_outcome).isSome = true := by
  have h := marginal_outcome_requires_fit tblEx "art" gInit gInit gFit fitRegEx
    Treatment.ALL 1 2 7
  refine ⟨h.1 rfl, h.2.1 rfl, h.2.2.1 rfl, h.2.2.2 ?_⟩
  rw [fit_stochastic_eq_commit_one]
  show (commit gFit (stochResult "art" (Option.some mEx) _ tblEx 2 7)).2 = Option.none
  rw [stochResult_one, commit_ok]

/-- C2: for every table and every deterministic treatment rule, `fit`
averages the model predictions over all rows of the original table — the
counterfactual table has exactly as many rows as the original and the mean is
taken over all of them, so rows whose observed outcome is missing are
included — even though the outcome model is fit using only the rows with a
non-missing outcome (`fittingRows` keeps exactly those). -/
theorem fit_averages_all_rows (g : TimeFixedGFormula) (tr : Treatment) (rows : List Row)
    (hrows : mapE (applyRule g.exposure tr) g.table = .ok rows) :
    rows.length = g.table.length ∧
    (∀ m, g.fitted_model = Option.some m →
      (fit tr g).1.marginal_outcome = Option.some (mean (rows.map (fun r => m r.covs)))) ∧
    (∀ r ∈ fittingRows g.table, r.outcome.isSome = true) ∧
    (∀ r ∈ g.table, r.outcome.isSome = true → r ∈ fittingRows g.table) := by
  refine ⟨mapE_ok_length _ _ _ hrows, ?_, ?_, ?_⟩
  · intro m hm
    simp [fit, fitResult, hm, hrows, commit_ok]
  · intro r hr
    exact (List.mem_filter.mp hr).2
  · intro r hr hsome
    exact List.mem_filter.mpr ⟨hr, hsome⟩

/-- The counterfactual table of the witness for C2: the example table with
the exposure column overwritten with 1 in every row, the row with missing
outcome included. -/
def rowsExAll : List Row :=
  [{ covs := [("art", 1), ("male", 1)], outcome := Option.some 1 },
   { covs := [("art", 1), ("male", 0)], outcome := Option.some 0 },
   { covs := [("art", 1), ("male", 1)], outcome := Option.none }]

/-- Witness for C2: on the concrete three-row table whose third row has a
missing outcome, `fit(ALL)` averages three predictions (the full table size)
and its result is the mean over all three counterfactual rows. -/
theorem fit_averages_all_rows_witness :
    rowsExAll.length = gFit.table.length ∧
    (fit Treatment.ALL gFit).1.marginal_outcome =
      Option.some (mean (rowsExAll.map (fun r => mEx r.covs))) := by
  have h := fit_averages_all_rows gFit Treatment.ALL rowsExAll rfl
  exact ⟨h.1, h.2.1 mEx rfl⟩

/-- C10: custom deterministic treatments and conditional-stochastic group
restrictions are predicate expressions evaluated against the covariate table
bound to the fixed identifier `g`; a predicate that refers to the table by
any other name, or to a missing column, fails with `RuleEvaluationError`
(both row-wise and through the enclosing fit) rather than silently selecting
no rows. -/
theorem custom_predicate_magic_g (v : String) (c : Col) (cop : Cop) (q : ℚ)
    (r : Row) (g : TimeFixedGFormula)
    (h : v ≠ "g" ∨ r.get c = Option.none) :
    evalPred (PredExpr.atom v c cop q) r = .error GError.RuleEvaluationError ∧
    (∀ ps, condProb [PredExpr.atom v c cop q] ps r = .error GError.RuleEvaluationError) ∧
    (r ∈ g.table →
      ((fit (Treatment.CUSTOM (PredExpr.atom v c cop q)) g).2).isSome = true) := by
  have heval : evalPred (PredExpr.atom v c cop q) r = .error GError.RuleEvaluationError := by
    rcases h with h | h
    · simp [evalPred, h]
    · by_cases hv : v = "g"
      · simp [evalPred, hv, h]
      · simp [evalPred, hv]
  refine ⟨heval, ?_, ?_⟩
  · intro ps
    simp [condProb, matchFlags, mapE, heval]
  · intro hr
    cases hm : g.fitted_model with
    | none => simp [fit, fitResult, hm, commit_error]
    | some m =>
        have happ : applyRule g.exposure (Treatment.CUSTOM (PredExpr.atom v c cop q)) r
            = .error GError.RuleEvaluationError := by
          simp [applyRule, heval]
        rcases mapE_error_of_mem _ g.table r hr _ happ with ⟨e', he'⟩
        simp [fit, fitResult, hm, he', commit_error]

/-- Witness for C10: the predicate `h['male'] == 0` (wrong table identifier)
fails to evaluate on a concrete row, fails as a conditional group
restriction, and makes the enclosing custom fit fail. -/
theorem custom_predicate_magic_g_witness :
    evalPred (PredExpr.atom "h" "male" Cop.ceq 0) rowEx1 = .error GError.RuleEvaluationError ∧
    condProb [PredExpr.atom "h" "male" Cop.ceq 0] [1] rowEx1 =
      .error GError.RuleEvaluationError ∧
    ((fit (Treatment.CUSTOM (PredExpr.atom "h" "male" Cop.ceq 0)) gFit).2).isSome = true := by
  have h := custom_predicate_magic_g "h" "male" Cop.ceq 0 rowEx1 gFit (Or.inl (by decide))
  exact ⟨h.1, h.2.1 [1], h.2.2 (List.mem_cons_self rowEx1 [rowEx2, rowEx3])⟩

lemma stochResult_const (expo : Col) (m : Model) (tbl : List Row) (reps seed : ℕ)
    (p : ℚ) (b : Bool) (hd : ∀ s, (draw p s).1 = b) :
    stochResult expo (Option.some m) (fun _ => .ok p) tbl reps seed =
      .ok (mean (List.replicate reps
        (mean ((tbl.map (fun r => r.setCol expo (if b then 1 else 0))).map
          (fun r => m r.covs))))) := by
  simp [stochResult, trialsWith_const expo m p b hd tbl reps seed]

lemma fitResult_rule (expo : Col) (m : Model) (tbl : List Row) (tr : Treatment)
    (f : Row → Row) (hrule : ∀ r, applyRule expo tr r = .ok (f r)) :
    fitResult expo (Option.some m) tbl tr =
      .ok (mean ((tbl.map f).map (fun r => m r.covs))) := by
  simp [fitResult, mapE_ok_of_forall (applyRule expo tr) f tbl (fun x _ => hrule x)]

lemma fit_stochastic_const_eq_fit (g : TimeFixedGFormula) (reps seed : ℕ)
    (hreps : 0 < reps) (p : ℚ) (hp : 0 ≤ p ∧ p ≤ 1) (b : Bool)
    (hd : ∀ s, (draw p s).1 = b) (tr : Treatment)
    (hrule : ∀ r : Row,
      applyRule g.exposure tr r = .ok (r.setCol g.exposure (if b then 1 else 0))) :
    fit_stochastic p reps seed g = fit tr g := by
  unfold fit_stochastic fit
  rw [if_pos hp]
  have hres : stochResult g.exposure g.fitted_model (fun _ => .ok p) g.table reps seed
      = fitResult g.exposure g.fitted_model g.table tr := by
    cases hm : g.fitted_model with
    | none => rfl
    | some m =>
        rw [stochResult_const g.exposure m g.table reps seed p b hd,
          fitResult_rule g.exposure m g.table tr _ hrule,
          mean_replicate _ _ hreps]
  rw [hres]

lemma fit_stochastic_fail_clean (p : ℚ) (reps seed : ℕ) (g : TimeFixedGFormula)
    (h : (fit_stochastic p reps seed g).2.isSome = true) :
    (fit_stochastic p reps seed g).1 = g := by
  by_cases hc : 0 ≤ p ∧ p ≤ 1
  · unfold fit_stochastic at h ⊢
    rw [if_pos hc] at h ⊢
    exact commit_fail_clean g _ h
  · unfold fit_stochastic
    rw [if_neg hc]

lemma fit_stochastic_preserves (p : ℚ) (reps seed : ℕ) (g : TimeFixedGFormula) :
    ((fit_stochastic p reps seed g).1).table = g.table ∧
    ((fit_stochastic p reps seed g).1).exposure = g.exposure ∧
    ((fit_stochastic p reps seed g).1).fitted_model = g.fitted_model := by
  by_cases hc : 0 ≤ p ∧ p ≤ 1
  · unfold fit_stochastic
    rw [if_pos hc]
    exact commit_preserves g _
  · unfold fit_stochastic
    rw [if_neg hc]
    exact ⟨rfl, rfl, rfl⟩

/-- C5: for every table, fitted model and repetition count `k > 0`,
`fit_stochastic(p=1, repetitions=k)` coincides with `fit(ALL)` — exactly, in
rational arithmetic — and `fit_stochastic(p=0, repetitions=k)` coincides with
`fit(NONE)`: the whole resulting estimator states and error outcomes are
equal. -/
theorem fit_stochastic_extremes (g : TimeFixedGFormula) (reps seed : ℕ)
    (hreps : 0 < reps) :
    fit_stochastic 1 reps seed g = fit Treatment.ALL g ∧
    fit_stochastic 0 reps seed g = fit Treatment.NONE g :=
  ⟨fit_stochastic_const_eq_fit g reps seed hreps 1 (by norm_num) true draw_one_fst
      Treatment.ALL (fun _ => rfl),
    fit_stochastic_const_eq_fit g reps seed hreps 0 (by norm_num) false draw_zero_fst
      Treatment.NONE (fun _ => rfl)⟩

/-- Witness for C5: on the concrete example estimator with three repetitions
and seed 7, the stochastic fit at p=1 equals `fit(ALL)` and at p=0 equals
`fit(NONE)`. -/
theorem fit_stochastic_extremes_witness :
    0 < 3 ∧ fit_stochastic 1 3 7 gFit = fit Treatment.ALL gFit ∧
    fit_stochastic 0 3 7 gFit = fit Treatment.NONE gFit :=
  ⟨by decide, (fit_stochastic_extremes gFit 3 7 (by decide)).1,
    (fit_stochastic_extremes gFit 3 7 (by decide)).2⟩

/-- C4: `fit_stochastic` is a deterministic function of the table, exposure
column, stored model, probability, repetition count and seed — two estimators
agreeing on those fields (whatever their prior marginal-outcome results)
produce the same error outcome and, on success, the same marginal outcome;
in particular two back-to-back calls with identical arguments produce
identical marginal-outcome results. -/
theorem fit_stochastic_deterministic (p : ℚ) (reps seed : ℕ)
    (g1 g2 : TimeFixedGFormula) (ht : g1.table = g2.table)
    (he : g1.exposure = g2.exposure) (hmo : g1.fitted_model = g2.fitted_model) :
    (fit_stochastic p reps seed g1).2 = (fit_stochastic p reps seed g2).2 ∧
    ((fit_stochastic p reps seed g1).2 = Option.none →
      (fit_stochastic p reps seed g1).1.marginal_outcome =
        (fit_stochastic p reps seed g2).1.marginal_outcome) ∧
    (fit_stochastic p reps seed ((fit_stochastic p reps seed g1).1)).1.marginal_outcome =
      (fit_stochastic p reps seed g1).1.marginal_outcome := by
  have hinv : ∀ (a b : TimeFixedGFormula), a.table = b.table → a.exposure = b.exposure →
      a.fitted_model = b.fitted_model →
      (fit_stochastic p reps seed a).2 = (fit_stochastic p reps seed b).2 ∧
      ((fit_stochastic p reps seed a).2 = Option.none →
        (fit_stochastic p reps seed a).1.marginal_outcome =
          (fit_stochastic p reps seed b).1.marginal_outcome) := by
    intro a b hta hea hma
    by_cases hc : 0 ≤ p ∧ p ≤ 1
    · unfold fit_stochastic
      rw [if_pos hc, if_pos hc]
      have hr : stochResult a.exposure a.fitted_model (fun _ => .ok p) a.table reps seed
          = stochResult b.exposure b.fitted_model (fun _ => .ok p) b.table reps seed := by
        rw [hta, hea, hma]
      rw [hr]
      cases stochResult b.exposure b.fitted_model (fun _ => .ok p) b.table reps seed with
      | error e => exact ⟨rfl, fun hnone => by simp [commit_error] at hnone⟩
      | ok v => exact ⟨rfl, fun _ => rfl⟩
    · unfold fit_stochastic
      rw [if_neg hc, if_neg hc]
      exact ⟨rfl, fun hnone => by simp at hnone⟩
  refine ⟨(hinv g1 g2 ht he hmo).1, (hinv g1 g2 ht he hmo).2, ?_⟩
  cases hsnd : (fit_stochastic p reps seed g1).2 with
  | none =>
      have hpres := fit_stochastic_preserves p reps seed g1
      have h2 := hinv ((fit_stochastic p reps seed g1).1) g1 hpres.1 hpres.2.1 hpres.2.2
      exact h2.2 (h2.1.trans hsnd)
  | some e =>
      have hfc : (fit_stochastic p reps seed g1).1 = g1 :=
        fit_stochastic_fail_clean p reps seed g1 (by rw [hsnd]; rfl)
      simp only [hfc]

/-- An estimator identical to the fitted example except for a stale
marginal-outcome result, used to witness determinism. -/
def gFitStale : TimeFixedGFormula := { gFit with marginal_outcome := Option.some 5 }

/-- Witness for C4: two concrete estimators sharing table, exposure and
model (one with a stale prior result) give the same error outcome and the
same marginal outcome at (p=1, 2 repetitions, seed 7), and a repeated
identical call reproduces the first call's marginal outcome. -/
theorem fit_stochastic_deterministic_witness :
    (fit_stochastic 1 2 7 gFit).2 = (fit_stochastic 1 2 7 gFitStale).2 ∧
    (fit_stochastic 1 2 7 gFit).1.marginal_outcome =
      (fit_stochastic 1 2 7 gFitStale).1.marginal_outcome ∧
    (fit_stochastic 1 2 7 ((fit_stochastic 1 2 7 gFit).1)).1.marginal_outcome =
      (fit_stochastic 1 2 7 gFit).1.marginal_outcome := by
  have h := fit_stochastic_deterministic 1 2 7 gFit gFitStale rfl rfl rfl
  have hnone : (fit_stochastic 1 2 7 gFit).2 = Option.none := by
    rw [fit_stochastic_eq_commit_one]
    show (commit gFit (stochResult "art" (Option.some mEx) _ tblEx 2 7)).2 = Option.none
    rw [stochResult_one, commit_ok]
  exact ⟨h.1, h.2.1 hnone, h.2.2⟩

lemma condProb_single_true (q : PredExpr) (x : ℚ) (r : Row)
    (hq : evalPred q r = .ok true) : condProb [q] [x] r = .ok x := by
  simp [condProb, matchFlags, mapE, hq, pickProb, List.count_cons, List.count_nil]

/-- C6: for every table, fitted model, probability `x` and seed, a
conditional-stochastic fit with a single group predicate matching every row
and probability list `[x]` is identical (state and error outcome) to the
unconditional stochastic fit with probability `x`. -/
theorem fit_stochastic_conditional_single_group (g : TimeFixedGFormula) (x : ℚ)
    (q : PredExpr) (reps seed : ℕ) (hx0 : 0 ≤ x) (hx1 : x ≤ 1)
    (hall : ∀ r ∈ g.table, evalPred q r = .ok true) :
    fit_stochastic_conditional [x] [q] reps seed g = fit_stochastic x reps seed g := by
  unfold fit_stochastic_conditional fit_stochastic
  rw [if_pos ⟨rfl, by
      intro y hy
      rw [List.mem_singleton] at hy
      subst hy
      exact ⟨hx0, hx1⟩⟩,
    if_pos ⟨hx0, hx1⟩,
    stochResult_congr g.exposure g.fitted_model (condProb [q] [x]) (fun _ => .ok x)
      g.table (fun r hr => condProb_single_true q x r (hall r hr)) reps seed]

/-- Witness for C6: on the concrete example table, the single group
`g['male'] >= 0` matches every row, and the conditional-stochastic fit with
p=[1] equals the unconditional stochastic fit with p=1 (2 repetitions,
seed 7). -/
theorem fit_stochastic_conditional_single_group_witness :
    (0:ℚ) ≤ 1 ∧
    fit_stochastic_conditional [1] [PredExpr.atom "g" "male" Cop.cge 0] 2 7 gFit =
      fit_stochastic 1 2 7 gFit := by
  refine ⟨by decide, fit_stochastic_conditional_single_group gFit 1
    (PredExpr.atom "g" "male" Cop.cge 0) 2 7 (by decide) (by decide) ?_⟩
  intro r hr
  have hr' : r ∈ [rowEx1, rowEx2, rowEx3] := hr
  rcases List.mem_cons.mp hr' with h1 | hr'
  · subst h1
    rfl
  rcases List.mem_cons.mp hr' with h2 | hr'
  · subst h2
    rfl
  rcases List.mem_cons.mp hr' with h3 | hr'
  · subst h3
    rfl
  · cases hr'

end GComp
